import Mathlib

/-
Verification of the batch ZIP-archive invoice processing pipeline in
invoice_processor.py.  The external collaborators (Azure Document
Intelligence OCR, the Pezzo prompt service, the Azure OpenAI completion
client, and the Python standard-library json parser) are modelled as
opaque outcomes supplied through environment structures; everything the
repository itself computes (string surgery on the LLM response, record
construction and item expansion, error-record fallback, archive file
filtering, worker-count arithmetic, CSV assembly) is translated directly
from the source.
-/

set_option linter.unusedVariables false

namespace InvoiceBatch

/-! ## Python string primitives (over List Char) -/

/-- The opening-brace character, written numerically. -/
def lbrace : Char := Char.ofNat 123

/-- The closing-brace character, written numerically. -/
def rbrace : Char := Char.ofNat 125

/-- Characters removed by the Python str.strip() default (ASCII whitespace). -/
def pyIsSpace (c : Char) : Bool :=
  c = ' ' || c = '\t' || c = '\n' || c = '\r' || c = '\x0b' || c = '\x0c'

/-- Python str.strip(): drop whitespace from both ends. -/
def pyStrip (s : List Char) : List Char :=
  ((s.dropWhile pyIsSpace).reverse.dropWhile pyIsSpace).reverse

/-- Index of the first occurrence of a character, if any (Python find returns
this index, or -1 when absent). -/
def firstIndexOf : List Char → Char → Option Nat
  | [], _ => none
  | x :: xs, c => if x = c then some 0 else (firstIndexOf xs c).map (· + 1)

/-- Index of the last occurrence of a character, if any (Python rfind returns
this index, or -1 when absent). -/
def lastIndexOf : List Char → Char → Option Nat
  | [], _ => none
  | x :: xs, c =>
    match lastIndexOf xs c with
    | some j => some (j + 1)
    | none => if x = c then some 0 else none

/-- Python str.find for a single character: first index or -1. -/
def pyFind (s : List Char) (c : Char) : Int :=
  match firstIndexOf s c with
  | some i => (i : Int)
  | none => -1

/-- Python str.rfind for a single character: last index or -1. -/
def pyRFind (s : List Char) (c : Char) : Int :=
  match lastIndexOf s c with
  | some j => (j : Int)
  | none => -1

/-- Python slice s[a:b] for 0 ≤ a ≤ b. -/
def pySlice (s : List Char) (a b : Nat) : List Char :=
  (s.take b).drop a

/-- Python str.lower (ASCII model). -/
def pyLower (s : String) : String :=
  String.mk (s.data.map Char.toLower)

/-- Python str.endswith. -/
def pyEndsWith (s suffix : String) : Bool :=
  suffix.data.isSuffixOf s.data

/-- os.path.basename for POSIX paths: the part after the last slash. -/
def basename (p : String) : String :=
  String.mk ((p.data.reverse.takeWhile (fun c => c ≠ '/')).reverse)

/-! ## JSON values as produced by json.loads

Numeric JSON values are modelled as integers; no claim depends on the
string rendering of non-integer numbers.  The Python str() rendering of
nested lists and dicts is not reproduced textually (no claim inspects it);
scalar renderings follow Python. -/

inductive JValue where
  | null
  | bool (b : Bool)
  | num (n : Int)
  | str (s : String)
  | arr (elems : List JValue)
  | obj (fields : List (String × JValue))

/-- Python truthiness of a decoded JSON value. -/
def truthy : JValue → Bool
  | .null => false
  | .bool b => b
  | .num n => n != 0
  | .str s => s != ""
  | .arr xs => !xs.isEmpty
  | .obj kvs => !kvs.isEmpty

/-- Python str() applied to a decoded JSON value (scalars faithful; nested
containers rendered by an opaque tag that no claim inspects). -/
def pyStr : JValue → String
  | .null => "None"
  | .bool true => "True"
  | .bool false => "False"
  | .num n => toString n
  | .str s => s
  | .arr _ => "<list>"
  | .obj _ => "<dict>"

/-- Python dict lookup on a decoded JSON object (keys are unique in a
Python dict; first match). -/
def jget (kvs : List (String × JValue)) (k : String) : Option JValue :=
  (kvs.find? (fun kv => kv.1 == k)).map (fun kv => kv.2)

/-- str(extracted_data.get(key, "N/A")): lookup with sentinel default, then
string coercion. -/
def getStr (kvs : List (String × JValue)) (k : String) : String :=
  pyStr ((jget kvs k).getD (JValue.str "N/A"))

/-- Python iteration over a decoded JSON value: lists yield elements, strings
yield one-character strings, dicts yield their keys, other scalars raise
TypeError.  (Falsy values are never iterated by the source.) -/
def pyIterate : JValue → Except String (List JValue)
  | .arr xs => .ok xs
  | .str s => .ok (s.data.map (fun c => JValue.str (String.mk [c])))
  | .obj kvs => .ok (kvs.map (fun kv => JValue.str kv.1))
  | _ => .error "TypeError: object is not iterable"

/-! ## Records and the per-file worker (process_single_file_worker) -/

/-- A record is a Python dict from field names to string values, with
insertion order preserved (Python 3.7+ dicts). -/
abbrev Rec := List (String × String)

/-- record.get(field) on a Rec: first matching key. -/
def lookupField (r : Rec) (k : String) : Option String :=
  (r.find? (fun kv => kv.1 == k)).map (fun kv => kv.2)

/-- The declared CSV schema, as listed in the worker error path
(invoice_processor.py lines 132-135). -/
def fieldnames : List String :=
  ["source_file", "invoice_number", "invoice_date", "customer_name",
   "customer_address", "item_description", "qty", "processing_error"]

/-- The declared CSV schema as returned by
InvoiceProcessor.get_csv_fieldnames (lines 360-370); the source duplicates
the same list in the worker. -/
def get_csv_fieldnames : List String :=
  ["source_file", "invoice_number", "invoice_date", "customer_name",
   "customer_address", "item_description", "qty", "processing_error"]

/-- The invoice_info dict built from the parsed LLM object (lines 89-95). -/
def invoiceInfo (fileName : String) (d : List (String × JValue)) : Rec :=
  [("source_file", fileName),
   ("invoice_number", getStr d "invoice_number"),
   ("invoice_date", getStr d "invoice_date"),
   ("customer_name", getStr d "customer_name"),
   ("customer_address", getStr d "customer_address")]

/-- invoice_info.copy() followed by update with the item-level fields
(lines 111-116); the two keys are fresh, so the update appends. -/
def itemRecord (info : Rec) (item : List (String × JValue)) : Rec :=
  info ++ [("item_description", getStr item "item_description"),
           ("qty", getStr item "qty")]

/-- The single sentinel-filled record emitted when items is falsy
(lines 100-107). -/
def sentinelRecord (info : Rec) : Rec :=
  info ++ [("item_description", "N/A"), ("qty", "N/A")]

/-- The error-record dict shape shared by the worker fallback
(lines 137-141) and the coordinator empty-result fallback (lines 331-335):
source_file and processing_error first, then every other declared field
bound to the sentinel. -/
def mkErrorDict (src msg : String) : Rec :=
  [("source_file", src), ("processing_error", msg)] ++
    (fieldnames.filter
      (fun f => !(f == "source_file" || f == "processing_error"))).map
      (fun f => (f, "N/A"))

/-- The worker error record (lines 137-142). -/
def errorRecord (base msg : String) : Rec :=
  mkErrorDict base msg

/-- extracted_data.get("items", []) from line 97. -/
def itemsValue (d : List (String × JValue)) : JValue :=
  (jget d "items").getD (JValue.arr [])

/-- Record construction and item expansion from the parsed object
(lines 89-117): header fields with sentinel defaults and str coercion,
then one record per dict element of items, or a single sentinel-filled
record when items is falsy; iterating a non-iterable items raises. -/
def buildRecords (fileName : String) (d : List (String × JValue)) :
    Except String (List Rec) :=
  let info := invoiceInfo fileName d
  let items := itemsValue d
  if truthy items = false then
    .ok [sentinelRecord info]
  else
    match pyIterate items with
    | .error e => .error e
    | .ok xs =>
      .ok (xs.filterMap (fun it =>
        match it with
        | JValue.obj kvs => some (itemRecord info kvs)
        | _ => none))

/-- The code-fence stripping of the LLM response (lines 75-79): strip
whitespace, drop a leading json code-fence marker if present (stripping
again), drop a trailing code-fence marker if present (stripping again). -/
def fenceStripped (resp : List Char) : List Char :=
  let t0 := pyStrip resp
  let t1 :=
    if ("```json".data).isPrefixOf t0 then pyStrip (t0.drop ("```json".data).length)
    else t0
  if ("```".data).isSuffixOf t1 then pyStrip (t1.take (t1.length - ("```".data).length))
  else t1

/-- The JSON-span extraction of lines 81-87: find the first opening brace
and one past the last closing brace (with -1 sentinels), slice that span if
it is non-degenerate, otherwise raise. -/
def unwrapResponse (resp : List Char) : Except String (List Char) :=
  let t := fenceStripped resp
  let json_start : Int := pyFind t lbrace
  let json_end : Int := pyRFind t rbrace + 1
  if json_start ≥ 0 ∧ json_end > json_start then
    Except.ok (pySlice t json_start.toNat json_end.toNat)
  else
    Except.error "No JSON object found in response"

/-- Credential bundle captured at InvoiceProcessor construction and
replicated into every worker (lines 158-163). -/
structure Credentials where
  azure_endpoint : String
  azure_key : String
  pezzo_api_key : String
  pezzo_project_id : String

/-- Outcomes of the external collaborators consumed by one worker run.
ocrResult is the Azure extract_text call; promptResult is the Pezzo
get_prompt plus template format step; modelDeployment is the
AZURE_MODEL_DEPLOYMENT_NAME environment variable; llmResult is the
completion call (its ok value is response.content); jsonParse is
json.loads on the sliced span (none models a JSONDecodeError). -/
structure WorkerEnv where
  ocrResult : Except String String
  promptResult : Except String String
  modelDeployment : Option String
  llmResult : Except String String
  jsonParse : String → Option JValue

/-- The body of the worker try-block (lines 23-121): any error falls
through to the fallback in process_single_file_worker. -/
def workerCore (file_path : String) (creds : Credentials) (env : WorkerEnv) :
    Except String (List Rec) :=
  match env.ocrResult with
  | .error e => .error e
  | .ok _text =>
    match env.promptResult with
    | .error e => .error e
    | .ok _prompt =>
      if (env.modelDeployment.getD "") = "" then
        .error "AZURE_MODEL_DEPLOYMENT_NAME environment variable is not set"
      else
        match env.llmResult with
        | .error e => .error e
        | .ok content =>
          match unwrapResponse content.data with
          | .error e => .error e
          | .ok jsonChars =>
            match env.jsonParse (String.mk jsonChars) with
            | none => .error "JSONDecodeError: Expecting value"
            | some (JValue.obj d) => buildRecords (basename file_path) d
            | some _ => .error "AttributeError: get"

/-- process_single_file_worker (lines 16-142): the unit of parallel work;
on any internal failure it returns the single-element error-record list. -/
def process_single_file_worker (file_path : String) (creds : Credentials)
    (env : WorkerEnv) : List Rec :=
  match workerCore file_path creds env with
  | .ok recs => recs
  | .error e => [errorRecord (basename file_path) e]

/-! ## Archive extraction (extract_zip_files) -/

/-- The extension allow-list of line 175. -/
def allowedExts : List String :=
  [".pdf", ".png", ".jpg", ".jpeg", ".tiff", ".bmp"]

/-- file.lower().endswith((".pdf", ...)) from line 175. -/
def hasAllowedExt (name : String) : Bool :=
  allowedExts.any (fun ext => pyEndsWith (pyLower name) ext)

/-- Outcome of the external unzip-and-walk step: either the archive is
corrupt or unreadable (an exception from zipfile or extractall), or the
recursive directory walk yields a list of file paths. -/
structure ZipEnv where
  unzipResult : Except String (List String)

/-- extract_zip_files (lines 165-181): re-raise any unzip failure,
otherwise return the walked files filtered by the extension allow-list.
An archive yielding zero eligible files returns the empty list here;
the zero-files check lives in the caller. -/
def extract_zip_files (env : ZipEnv) : Except String (List String) :=
  match env.unzipResult with
  | .error e => .error e
  | .ok walked => .ok (walked.filter hasAllowedExt)

/-! ## CSV assembly and the batch coordinator (process_zip_file) -/

/-- Worker-count policy of line 289: max(1, int(cpu_count() * 0.75)).
The float product n * 0.75 is exact (0.75 is 3/4, a dyadic rational, and
3 * n stays well inside 53 bits for any physical CPU count), so int()
truncation equals the natural-number quotient 3 * n / 4. -/
def numProcesses (cpu_count : Nat) : Nat :=
  max 1 (3 * cpu_count / 4)

/-- csv.DictWriter QUOTE_MINIMAL: a field is quoted when it contains the
delimiter, the quote character, or a line-terminator character. -/
def needsQuote (s : String) : Bool :=
  s.data.any (fun c => c = ',' || c = '"' || c = '\n' || c = '\r')

/-- Render one CSV field under minimal quoting (quote characters doubled). -/
def renderField (s : String) : String :=
  if needsQuote s then "\"" ++ s.replace "\"" "\"\"" ++ "\"" else s

/-- Render one CSV row: comma-joined fields plus the csv-module default
line terminator. -/
def renderRow (fields : List String) : String :=
  String.intercalate "," (fields.map renderField) ++ "\r\n"

/-- Sequential concatenation of written lines (the StringIO buffer). -/
def concatLines : List String → String
  | [] => ""
  | l :: ls => l ++ concatLines ls

/-- Line 323: row_data = a value for every declared field, taken from the
record with the sentinel default, in declared column order. -/
def rowData (fns : List String) (record : Rec) : List String :=
  fns.map (fun f => (lookupField record f).getD "N/A")

/-- The synthetic error record written when a worker returned an empty
result list (lines 331-335). -/
def unknownErrorRecord (i : Nat) : Rec :=
  mkErrorDict ("unknown_file_" ++ toString i) "No results returned from worker"

/-- The rows contributed by the file at index i (lines 310-337): one row
per dict record when the result list is non-empty, otherwise one synthetic
error row.  Every worker result element is a dict in this model, so the
isinstance guard of line 322 is always true. -/
def fileRows (fns : List String) (i : Nat) (file_results : List Rec) :
    List (List String) :=
  if file_results.isEmpty then [rowData fns (unknownErrorRecord i)]
  else file_results.map (rowData fns)

/-- The enumerate loop of lines 310-337: rows written sequentially, one
block per collected result, with a running index. -/
def writeResults (fns : List String) (i : Nat) :
    List (List Rec) → List (List String)
  | [] => []
  | fr :: rest => fileRows fns i fr ++ writeResults fns (i + 1) rest

/-- Per-batch environment: the archive outcome, the reported CPU count,
and the collaborator outcomes seen by the worker for each file path. -/
structure BatchEnv where
  zip : ZipEnv
  cpuCount : Nat
  fileEnv : String → WorkerEnv

/-- The results list produced by pool.map (line 301): one worker result
per dispatched file, index-aligned with the argument list. -/
def batchResults (creds : Credentials) (env : BatchEnv) (files : List String) :
    List (List Rec) :=
  files.map (fun f => process_single_file_worker f creds (env.fileEnv f))

/-- process_zip_file (lines 269-358): extract, fail on zero eligible
files, write the header row, fan out the worker over every file, and
write every result block sequentially into the CSV buffer. -/
def process_zip_file (creds : Credentials) (env : BatchEnv) :
    Except String String :=
  match extract_zip_files env.zip with
  | .error e => .error e
  | .ok extracted_files =>
    if extracted_files.isEmpty then
      .error "No valid document files found in the zip archive"
    else
      let fns := get_csv_fieldnames
      let num_processes := numProcesses env.cpuCount
      let results := batchResults creds env extracted_files
      .ok (concatLines (renderRow fns :: (writeResults fns 0 results).map renderRow))

/-! ## Construction-time configuration (create_processor) -/

/-- Python truthiness of an os.getenv result (None or the empty string are
falsy). -/
def pyTruthyOpt (o : Option String) : Bool :=
  (o.getD "") != ""

/-- The environment variables read by create_processor (lines 389-392) and
by the worker (line 69). -/
structure ConfigEnv where
  vision_endpoint : Option String
  vision_key : Option String
  pezzo_api_key : Option String
  pezzo_project_id_3 : Option String
  azure_model_deployment_name : Option String

/-- The construction-time check of create_processor (lines 388-400):
raise when any of the four credentials is falsy, otherwise build the
processor with its credential bundle.  AZURE_MODEL_DEPLOYMENT_NAME is not
among the values checked here. -/
def create_processor (cfg : ConfigEnv) : Except String Credentials :=
  if pyTruthyOpt cfg.vision_endpoint && pyTruthyOpt cfg.vision_key &&
      pyTruthyOpt cfg.pezzo_api_key && pyTruthyOpt cfg.pezzo_project_id_3 then
    .ok ⟨cfg.vision_endpoint.getD "", cfg.vision_key.getD "",
         cfg.pezzo_api_key.getD "", cfg.pezzo_project_id_3.getD ""⟩
  else
    .error "Missing required environment variables for Azure or Pezzo configuration"

/-! ## Spec-level definitions used for refinement statements -/

/-- The spec wording of the tolerant JSON extraction: locate the first
opening brace and the last closing brace of the fence-stripped text and
slice that span; fail when no such span exists. -/
def unwrapResponseSpec (resp : List Char) : Except String (List Char) :=
  let t := fenceStripped resp
  match firstIndexOf t lbrace, lastIndexOf t rbrace with
  | some i, some j =>
    if i ≤ j then Except.ok (pySlice t i (j + 1))
    else Except.error "No JSON object found in response"
  | _, _ => Except.error "No JSON object found in response"

/-- A well-formed brace span: an opening brace at or before a closing
brace somewhere in the text. -/
def spanExists (t : List Char) : Prop :=
  ∃ i j, i ≤ j ∧ ∃ hi : i < t.length, ∃ hj : j < t.length,
    t.get ⟨i, hi⟩ = lbrace ∧ t.get ⟨j, hj⟩ = rbrace

/-- The fields of an items element when it is a dict (isinstance guard of
line 110). -/
def asObjFields : JValue → Option (List (String × JValue))
  | .obj kvs => some kvs
  | _ => none

/-! ## Concrete bundles used by witnesses and counterexamples -/

/-- A concrete credential bundle. -/
def credsW : Credentials := ⟨"ep", "key", "pk", "proj"⟩

/-- A worker environment whose OCR call fails. -/
def envOcrFail : WorkerEnv :=
  ⟨Except.error "ocr failed", Except.ok "prompt", some "gpt",
   Except.ok "resp", fun _ => none⟩

/-- A batch environment over a one-file archive whose worker OCR fails. -/
def envOneFile : BatchEnv :=
  ⟨⟨Except.ok ["a.pdf"]⟩, 8, fun _ => envOcrFail⟩

/-- A batch environment over an archive holding only a disallowed file. -/
def envTxtOnly : BatchEnv :=
  ⟨⟨Except.ok ["readme.txt"]⟩, 2, fun _ => envOcrFail⟩

/-- A configuration with the four construction-time variables present but
AZURE_MODEL_DEPLOYMENT_NAME absent. -/
def cfgNoModel : ConfigEnv :=
  ⟨some "ep", some "key", some "pk", some "proj", none⟩

/-- A configuration missing VISION_ENDPOINT. -/
def cfgMissing : ConfigEnv :=
  ⟨none, some "key", some "pk", some "proj", some "gpt"⟩

/-- The worker environment induced by cfgNoModel: collaborators succeed,
but the deployment-name variable is absent. -/
def envNoModel : WorkerEnv :=
  ⟨Except.ok "text", Except.ok "prompt", cfgNoModel.azure_model_deployment_name,
   Except.ok "resp", fun _ => none⟩

/-- The sentinel-filled success record the worker emits for an empty
parsed object. -/
def sentinelExampleRec : Rec :=
  [("source_file", "a.pdf"), ("invoice_number", "N/A"), ("invoice_date", "N/A"),
   ("customer_name", "N/A"), ("customer_address", "N/A"),
   ("item_description", "N/A"), ("qty", "N/A")]

/-- The CSV row rendered from a concrete worker error record. -/
def rowW : List String :=
  rowData get_csv_fieldnames (errorRecord "a.pdf" "boom")

/-! ## Supporting lemmas -/

theorem firstIndexOf_eq_none_iff (t : List Char) (c : Char) :
    firstIndexOf t c = none ↔ c ∉ t := by
  induction t with
  | nil => simp [firstIndexOf]
  | cons x xs ih =>
    simp only [firstIndexOf, List.mem_cons]
    by_cases hx : x = c
    · subst hx
      simp
    · rw [if_neg hx, Option.map_eq_none', ih]
      constructor
      · intro h hmem
        rcases hmem with h1 | h1
        · exact hx h1.symm
        · exact h h1
      · intro h h1
        exact h (Or.inr h1)

theorem firstIndexOf_some (t : List Char) (c : Char) (i : Nat)
    (h : firstIndexOf t c = some i) :
    ∃ hi : i < t.length, t.get ⟨i, hi⟩ = c := by
  induction t generalizing i with
  | nil => simp [firstIndexOf] at h
  | cons x xs ih =>
    simp only [firstIndexOf] at h
    by_cases hx : x = c
    · rw [if_pos hx] at h
      cases h
      exact ⟨Nat.succ_pos _, hx⟩
    · rw [if_neg hx, Option.map_eq_some'] at h
      rcases h with ⟨i', hi', rfl⟩
      rcases ih i' hi' with ⟨hlt, hget⟩
      exact ⟨Nat.succ_lt_succ hlt, hget⟩

theorem firstIndexOf_min (t : List Char) (c : Char) (i : Nat)
    (h : firstIndexOf t c = some i) :
    ∀ k, ∀ hk : k < t.length, t.get ⟨k, hk⟩ = c → i ≤ k := by
  induction t generalizing i with
  | nil => simp [firstIndexOf] at h
  | cons x xs ih =>
    simp only [firstIndexOf] at h
    by_cases hx : x = c
    · rw [if_pos hx] at h
      cases h
      intro k hk _
      exact Nat.zero_le k
    · rw [if_neg hx, Option.map_eq_some'] at h
      rcases h with ⟨i', hi', rfl⟩
      intro k hk hget
      cases k with
      | zero => exact absurd hget hx
      | succ k' =>
        exact Nat.succ_le_succ (ih i' hi' k' (Nat.lt_of_succ_lt_succ hk) hget)

theorem lastIndexOf_eq_none_iff (t : List Char) (c : Char) :
    lastIndexOf t c = none ↔ c ∉ t := by
  induction t with
  | nil => simp [lastIndexOf]
  | cons x xs ih =>
    simp only [lastIndexOf, List.mem_cons]
    cases hxs : lastIndexOf xs c with
    | some j =>
      have hmem : c ∈ xs := by
        by_contra hm
        exact Option.noConfusion (hxs ▸ ih.mpr hm)
      constructor
      · intro h
        exact Option.noConfusion h
      · intro h
        exact absurd (Or.inr hmem) h
    | none =>
      have hnm : c ∉ xs := ih.mp hxs
      by_cases hx : x = c
      · rw [if_pos hx]
        constructor
        · intro h
          exact Option.noConfusion h
        · intro h
          exact absurd (Or.inl hx.symm) h
      · rw [if_neg hx]
        constructor
        · intro _ hmem
          rcases hmem with h1 | h1
          · exact hx h1.symm
          · exact hnm h1
        · intro _
          rfl

theorem lastIndexOf_some (t : List Char) (c : Char) (j : Nat)
    (h : lastIndexOf t c = some j) :
    ∃ hj : j < t.length, t.get ⟨j, hj⟩ = c := by
  induction t generalizing j with
  | nil => simp [lastIndexOf] at h
  | cons x xs ih =>
    simp only [lastIndexOf] at h
    cases hxs : lastIndexOf xs c with
    | some j' =>
      rw [hxs] at h
      cases h
      rcases ih j' hxs with ⟨hlt, hget⟩
      exact ⟨Nat.succ_lt_succ hlt, hget⟩
    | none =>
      rw [hxs] at h
      by_cases hx : x = c
      · rw [if_pos hx] at h
        cases h
        exact ⟨Nat.succ_pos _, hx⟩
      · rw [if_neg hx] at h
        exact Option.noConfusion h

theorem lastIndexOf_max (t : List Char) (c : Char) (j : Nat)
    (h : lastIndexOf t c = some j) :
    ∀ k, ∀ hk : k < t.length, t.get ⟨k, hk⟩ = c → k ≤ j := by
  induction t generalizing j with
  | nil => simp [lastIndexOf] at h
  | cons x xs ih =>
    simp only [lastIndexOf] at h
    cases hxs : lastIndexOf xs c with
    | some j' =>
      rw [hxs] at h
      cases h
      intro k hk hget
      cases k with
      | zero => exact Nat.zero_le _
      | succ k' =>
        exact Nat.succ_le_succ (ih j' hxs k' (Nat.lt_of_succ_lt_succ hk) hget)
    | none =>
      rw [hxs] at h
      by_cases hx : x = c
      · rw [if_pos hx] at h
        cases h
        intro k hk hget
        cases k with
        | zero => exact Nat.le_refl 0
        | succ k' =>
          exfalso
          have hmem : c ∈ xs :=
            hget ▸ List.get_mem xs k' (Nat.lt_of_succ_lt_succ hk)
          exact absurd hmem ((lastIndexOf_eq_none_iff xs c).mp hxs)
      · rw [if_neg hx] at h
        exact Option.noConfusion h

theorem firstIndexOf_isSome_of_mem {t : List Char} {c : Char} (hm : c ∈ t) :
    ∃ i, firstIndexOf t c = some i := by
  cases hfi : firstIndexOf t c with
  | some i => exact ⟨i, rfl⟩
  | none => exact absurd hm ((firstIndexOf_eq_none_iff t c).mp hfi)

theorem lastIndexOf_isSome_of_mem {t : List Char} {c : Char} (hm : c ∈ t) :
    ∃ j, lastIndexOf t c = some j := by
  cases hfi : lastIndexOf t c with
  | some j => exact ⟨j, rfl⟩
  | none => exact absurd hm ((lastIndexOf_eq_none_iff t c).mp hfi)

theorem unwrap_eq_of_indexes (resp : List Char) {i j : Nat}
    (h1 : firstIndexOf (fenceStripped resp) lbrace = some i)
    (h2 : lastIndexOf (fenceStripped resp) rbrace = some j) (hij : i ≤ j) :
    unwrapResponse resp = Except.ok (pySlice (fenceStripped resp) i (j + 1)) := by
  simp only [unwrapResponse, pyFind, pyRFind, h1, h2]
  rw [if_pos]
  · have e1 : ((i : Int)).toNat = i := by omega
    have e2 : ((j : Int) + 1).toNat = j + 1 := by omega
    rw [e1, e2]
  · constructor
    · omega
    · omega

theorem unwrap_eq_error_cases (resp : List Char)
    (h : ∀ i j, firstIndexOf (fenceStripped resp) lbrace = some i →
      lastIndexOf (fenceStripped resp) rbrace = some j → ¬ i ≤ j) :
    unwrapResponse resp = Except.error "No JSON object found in response" := by
  cases h1 : firstIndexOf (fenceStripped resp) lbrace with
  | none =>
    simp only [unwrapResponse, pyFind, pyRFind, h1]
    rw [if_neg]
    intro hc
    omega
  | some i =>
    cases h2 : lastIndexOf (fenceStripped resp) rbrace with
    | none =>
      simp only [unwrapResponse, pyFind, pyRFind, h1, h2]
      rw [if_neg]
      intro hc
      omega
    | some j =>
      simp only [unwrapResponse, pyFind, pyRFind, h1, h2]
      rw [if_neg]
      intro hc
      exact h i j h1 h2 (by omega)

theorem unwrap_ok_iff_span (resp : List Char) :
    (∃ s, unwrapResponse resp = Except.ok s) ↔ spanExists (fenceStripped resp) := by
  constructor
  · rintro ⟨s, hs⟩
    cases h1 : firstIndexOf (fenceStripped resp) lbrace with
    | none =>
      rw [unwrap_eq_error_cases resp (fun a b ha _ _ => by rw [h1] at ha; cases ha)] at hs
      exact Except.noConfusion hs
    | some i =>
      cases h2 : lastIndexOf (fenceStripped resp) rbrace with
      | none =>
        rw [unwrap_eq_error_cases resp (fun a b _ hb _ => by rw [h2] at hb; cases hb)] at hs
        exact Except.noConfusion hs
      | some j =>
        by_cases hij : i ≤ j
        · rcases firstIndexOf_some _ _ _ h1 with ⟨hi, hgi⟩
          rcases lastIndexOf_some _ _ _ h2 with ⟨hj, hgj⟩
          exact ⟨i, j, hij, hi, hj, hgi, hgj⟩
        · rw [unwrap_eq_error_cases resp (fun a b ha hb hab => by
            rw [h1] at ha; rw [h2] at hb; cases ha; cases hb; exact hij hab)] at hs
          exact Except.noConfusion hs
  · rintro ⟨i0, j0, hij0, hi0, hj0, hg1, hg2⟩
    have hm1 : lbrace ∈ fenceStripped resp := hg1 ▸ List.get_mem _ _ _
    have hm2 : rbrace ∈ fenceStripped resp := hg2 ▸ List.get_mem _ _ _
    rcases firstIndexOf_isSome_of_mem hm1 with ⟨i, h1⟩
    rcases lastIndexOf_isSome_of_mem hm2 with ⟨j, h2⟩
    have hii : i ≤ i0 := firstIndexOf_min _ _ _ h1 i0 hi0 hg1
    have hjj : j0 ≤ j := lastIndexOf_max _ _ _ h2 j0 hj0 hg2
    exact ⟨_, unwrap_eq_of_indexes resp h1 h2 (le_trans hii (le_trans hij0 hjj))⟩

/-- C7: for every LLM response string, the unwrapping strips a leading
json code-fence marker and a trailing code-fence marker when present
(via fenceStripped, shared syntactically by both sides), then slices from
the first opening brace to the last closing brace of the remaining text
(the source computes this with find and rfind sentinels, the spec-level
definition with first and last occurrence indexes; the two agree
pointwise) and hands the span to the JSON parser; when no such span
exists the operation fails with the malformed-response error instead of
returning data. -/
theorem unwrap_policy (resp : List Char) :
    unwrapResponse resp = unwrapResponseSpec resp ∧
    ((∃ s, unwrapResponse resp = Except.ok s) ↔ spanExists (fenceStripped resp)) ∧
    (¬ spanExists (fenceStripped resp) →
      unwrapResponse resp = Except.error "No JSON object found in response") := by
  refine ⟨?_, unwrap_ok_iff_span resp, ?_⟩
  · cases h1 : firstIndexOf (fenceStripped resp) lbrace with
    | none =>
      rw [unwrap_eq_error_cases resp (fun a b ha _ _ => by rw [h1] at ha; cases ha)]
      simp only [unwrapResponseSpec, h1]
    | some i =>
      cases h2 : lastIndexOf (fenceStripped resp) rbrace with
      | none =>
        rw [unwrap_eq_error_cases resp (fun a b _ hb _ => by rw [h2] at hb; cases hb)]
        simp only [unwrapResponseSpec, h1, h2]
      | some j =>
        by_cases hij : i ≤ j
        · rw [unwrap_eq_of_indexes resp h1 h2 hij]
          simp only [unwrapResponseSpec, h1, h2, if_pos hij]
        · rw [unwrap_eq_error_cases resp (fun a b ha hb hab => by
            rw [h1] at ha; rw [h2] at hb; cases ha; cases hb; exact hij hab)]
          simp only [unwrapResponseSpec, h1, h2, if_neg hij]
  · intro hns
    apply unwrap_eq_error_cases
    intro i j h1 h2 hij
    rcases firstIndexOf_some _ _ _ h1 with ⟨hi, hgi⟩
    rcases lastIndexOf_some _ _ _ h2 with ⟨hj, hgj⟩
    exact hns ⟨i, j, hij, hi, hj, hgi, hgj⟩

/-- C7 witness: a response with no brace span fails with the
malformed-response error; the hypothesis of the error clause is
discharged at this concrete input. -/
theorem unwrap_policy_witness :
    unwrapResponse ("no json here".data) = Except.error "No JSON object found in response" := by
  apply (unwrap_policy ("no json here".data)).2.2
  rintro ⟨i, j, hij, hi, hj, hgi, hgj⟩
  have hm : lbrace ∈ fenceStripped ("no json here".data) :=
    hgi ▸ List.get_mem _ _ _
  revert hm
  decide

/-- C9: the worker count equals max(1, floor(0.75 times the available
parallelism)); at 8 CPUs it is 6, at 1 CPU it is 1, and it is never 0. -/
theorem worker_count_policy (n : Nat) :
    numProcesses n = max 1 (Nat.floor ((0.75 : ℚ) * n)) ∧
    numProcesses 8 = 6 ∧ numProcesses 1 = 1 ∧ 1 ≤ numProcesses n := by
  refine ⟨?_, rfl, rfl, le_max_left _ _⟩
  have h : (0.75 : ℚ) * n = ((3 * n : ℕ) : ℚ) / ((4 : ℕ) : ℚ) := by
    push_cast
    ring_nf
  rw [numProcesses, h, Nat.floor_div_nat, Nat.floor_natCast]

/-- C1: on any internal failure of the worker (modelled as an error
outcome of its try-block), process_single_file_worker returns exactly the
single-element error-record list, whose key set is exactly the declared
schema, with source_file bound to the file basename, processing_error
bound to the failure description, and every other declared field bound to
the sentinel. -/
theorem worker_failure_isolation (file_path : String) (creds : Credentials)
    (env : WorkerEnv) (e : String)
    (h : workerCore file_path creds env = Except.error e) :
    process_single_file_worker file_path creds env =
      [errorRecord (basename file_path) e] ∧
    (errorRecord (basename file_path) e).map Prod.fst =
      ["source_file", "processing_error", "invoice_number", "invoice_date",
       "customer_name", "customer_address", "item_description", "qty"] ∧
    (∀ f, f ∈ (errorRecord (basename file_path) e).map Prod.fst ↔ f ∈ fieldnames) ∧
    lookupField (errorRecord (basename file_path) e) "source_file" =
      some (basename file_path) ∧
    lookupField (errorRecord (basename file_path) e) "processing_error" = some e ∧
    ∀ f, f ∈ fieldnames → f ≠ "source_file" → f ≠ "processing_error" →
      lookupField (errorRecord (basename file_path) e) f = some "N/A" := by
  refine ⟨?_, rfl, ?_, rfl, rfl, ?_⟩
  · simp [process_single_file_worker, h]
  · intro f
    constructor
    · intro hf
      simp only [errorRecord, mkErrorDict, fieldnames] at hf ⊢
      simp at hf
      rcases hf with h1 | h1 | h1 | h1 | h1 | h1 | h1 | h1 <;> simp [h1]
    · intro hf
      simp only [fieldnames] at hf
      simp at hf
      rcases hf with h1 | h1 | h1 | h1 | h1 | h1 | h1 | h1 <;>
        simp [h1, errorRecord, mkErrorDict, fieldnames]
  · intro f hf h1 h2
    simp only [fieldnames] at hf
    simp at hf
    rcases hf with h3 | h3 | h3 | h3 | h3 | h3 | h3 | h3 <;> subst h3 <;>
      first
        | rfl
        | exact absurd rfl h1
        | exact absurd rfl h2

/-- C1 witness: a worker whose OCR call fails returns the single error
record for that file. -/
theorem worker_failure_isolation_witness :
    process_single_file_worker "docs/a.pdf" credsW envOcrFail =
      [errorRecord (basename "docs/a.pdf") "ocr failed"] :=
  (worker_failure_isolation "docs/a.pdf" credsW envOcrFail "ocr failed" rfl).1

/-- C3: an archive whose decompressed listing has zero files with an
allowed extension makes process_zip_file fail with the no-valid-documents
archive error instead of returning a CSV. -/
theorem process_zip_no_eligible_error (creds : Credentials) (env : BatchEnv)
    (names : List String) (hz : env.zip.unzipResult = Except.ok names)
    (hno : names.filter hasAllowedExt = []) :
    process_zip_file creds env =
      Except.error "No valid document files found in the zip archive" := by
  simp [process_zip_file, extract_zip_files, hz, hno]

/-- C3 witness: an archive listing only a text file is rejected. -/
theorem process_zip_no_eligible_error_witness :
    process_zip_file credsW envTxtOnly =
      Except.error "No valid document files found in the zip archive" :=
  process_zip_no_eligible_error credsW envTxtOnly ["readme.txt"] rfl (by decide)

/-- C4 counterexample: a readable archive whose walk yields only a
disallowed file makes extract_zip_files return the empty list to its
caller, not an ArchiveError, refuting the claim that the extractor itself
fails on zero eligible files. -/
theorem extract_zip_empty_counterexample :
    extract_zip_files ⟨Except.ok ["notes.txt"]⟩ = Except.ok ([] : List String) := rfl

/-- C4 amended: extract_zip_files re-raises when the archive is corrupt
or unreadable, but on a readable archive it returns the filtered listing
even when that listing is empty; the zero-eligible-documents ArchiveError
is raised by its caller process_zip_file, so the batch still hard-stops. -/
theorem extract_zip_error_policy (env : ZipEnv) :
    (∀ e, env.unzipResult = Except.error e →
      extract_zip_files env = Except.error e) ∧
    (∀ names, env.unzipResult = Except.ok names →
      extract_zip_files env = Except.ok (names.filter hasAllowedExt)) ∧
    (∀ creds benv names, benv.zip = env → env.unzipResult = Except.ok names →
      names.filter hasAllowedExt = [] →
      process_zip_file creds benv =
        Except.error "No valid document files found in the zip archive") := by
  refine ⟨?_, ?_, ?_⟩
  · intro e he
    simp [extract_zip_files, he]
  · intro names hn
    simp [extract_zip_files, hn]
  · intro creds benv names hb hn hno
    simp [process_zip_file, extract_zip_files, hb, hn, hno]

/-- C4 witness: both clauses of the amended statement at concrete
archives: a corrupt archive error propagates, and an all-text archive
yields the empty listing. -/
theorem extract_zip_error_policy_witness :
    extract_zip_files ⟨Except.error "BadZipFile"⟩ = Except.error "BadZipFile" ∧
    extract_zip_files ⟨Except.ok ["readme.txt"]⟩ =
      Except.ok (["readme.txt"].filter hasAllowedExt) :=
  ⟨(extract_zip_error_policy ⟨Except.error "BadZipFile"⟩).1 "BadZipFile" rfl,
   (extract_zip_error_policy ⟨Except.ok ["readme.txt"]⟩).2.1 ["readme.txt"] rfl⟩

/-- C5 counterexample: a success record produced by the worker record
construction does not carry the processing_error key, so its key set is a
strict subset of the declared schema, refuting the claim that every
produced record dict has exactly the declared field set. -/
theorem record_schema_counterexample :
    buildRecords "a.pdf" [] = Except.ok [sentinelExampleRec] ∧
    "processing_error" ∈ fieldnames ∧
    "processing_error" ∉ sentinelExampleRec.map Prod.fst := by
  refine ⟨rfl, by decide, by decide⟩

/-- C5 amended: uniformity holds at CSV-write time, not on the record
dicts themselves: every data row the coordinator writes is the declared
field list evaluated against some record with the sentinel default, hence
has exactly one value per declared column; success records lack the
processing_error key and get the sentinel substituted when the row is
built. -/
theorem csv_rows_uniform (results : List (List Rec)) (i : Nat)
    (row : List String)
    (h : row ∈ writeResults get_csv_fieldnames i results) :
    row.length = get_csv_fieldnames.length ∧
    ∃ record : Rec,
      row = get_csv_fieldnames.map (fun f => (lookupField record f).getD "N/A") := by
  induction results generalizing i with
  | nil => simp [writeResults] at h
  | cons fr rest ih =>
    simp only [writeResults, List.mem_append] at h
    rcases h with h | h
    · unfold fileRows at h
      split at h
      · simp only [List.mem_singleton] at h
        subst h
        exact ⟨by simp [rowData], ⟨unknownErrorRecord i, rfl⟩⟩
      · rcases List.mem_map.mp h with ⟨record, hrec, hrow⟩
        subst hrow
        exact ⟨by simp [rowData], ⟨record, rfl⟩⟩
    · exact ih (i + 1) h

/-- C5 witness: the row rendered from a concrete error record is uniform;
the membership hypothesis is discharged at a concrete one-file batch. -/
theorem csv_rows_uniform_witness :
    rowW.length = get_csv_fieldnames.length ∧
    ∃ record : Rec,
      rowW = get_csv_fieldnames.map (fun f => (lookupField record f).getD "N/A") :=
  csv_rows_uniform [[errorRecord "a.pdf" "boom"]] 0 rowW (by decide)

/-- C6 counterexample: a parsed object whose items array holds one
non-dict element yields zero records (the element is skipped and no
sentinel record is emitted), refuting one record per item and refuting
that a document unit always yields at least one record. -/
theorem items_expansion_counterexample :
    buildRecords "a.pdf" [("items", JValue.arr [JValue.num 1])] =
      Except.ok ([] : List Rec) ∧
    ([JValue.num 1] : List JValue).length = 1 :=
  ⟨rfl, rfl⟩

theorem length_filterMap_isSome {α β : Type} (f : α → Option β) (l : List α) :
    (l.filterMap f).length = l.countP (fun a => (f a).isSome) := by
  induction l with
  | nil => rfl
  | cons x xs ih =>
    cases hx : f x <;>
      simp [List.filterMap_cons, hx, List.countP_cons, ih]

/-- C6 amended: when items is falsy (absent, empty, or otherwise falsy)
the worker emits exactly one sentinel-filled record; when items is a
non-empty array it emits one record per dict element, each the header
record overlaid with the item fields — non-dict elements are skipped, so
an items array with no dict element yields zero records. -/
theorem items_expansion (fileName : String) (d : List (String × JValue)) :
    (truthy (itemsValue d) = false →
      buildRecords fileName d =
        Except.ok [sentinelRecord (invoiceInfo fileName d)]) ∧
    (∀ xs, itemsValue d = JValue.arr xs → xs ≠ [] →
      buildRecords fileName d =
        Except.ok ((xs.filterMap asObjFields).map
          (itemRecord (invoiceInfo fileName d)))) ∧
    (∀ xs : List JValue,
      ((xs.filterMap asObjFields).map (itemRecord (invoiceInfo fileName d))).length =
        xs.countP (fun it => (asObjFields it).isSome)) := by
  refine ⟨?_, ?_, ?_⟩
  · intro ht
    simp [buildRecords, ht]
  · intro xs hxs hne
    have htr : truthy (itemsValue d) = true := by
      rw [hxs]
      simp [truthy, List.isEmpty_iff, hne]
    simp only [buildRecords, htr, Bool.true_eq_false, if_neg]
    rw [hxs]
    simp only [pyIterate]
    have hfun : (fun it => match it with
        | JValue.obj kvs => some (itemRecord (invoiceInfo fileName d) kvs)
        | _ => none) =
        fun x => (asObjFields x).map (itemRecord (invoiceInfo fileName d)) := by
      funext x
      cases x <;> rfl
    rw [hfun, ← List.map_filterMap]
    simp
  · intro xs
    rw [List.length_map, length_filterMap_isSome]

/-- C6 witness: both clauses at concrete inputs: an absent items yields
the single sentinel record, and a two-element mixed items array yields
exactly one record, for its dict element. -/
theorem items_expansion_witness :
    buildRecords "a.pdf" [] =
      Except.ok [sentinelRecord (invoiceInfo "a.pdf" [])] ∧
    buildRecords "a.pdf"
        [("items", JValue.arr [JValue.num 1, JValue.obj [("qty", JValue.num 2)]])] =
      Except.ok
        (([JValue.num 1, JValue.obj [("qty", JValue.num 2)]].filterMap asObjFields).map
          (itemRecord (invoiceInfo "a.pdf"
            [("items", JValue.arr [JValue.num 1, JValue.obj [("qty", JValue.num 2)]])]))) :=
  ⟨(items_expansion "a.pdf" []).1 rfl,
   (items_expansion "a.pdf" _).2.1
     [JValue.num 1, JValue.obj [("qty", JValue.num 2)]] rfl (by simp)⟩

/-- C8 counterexample: with the four construction-time variables present
but AZURE_MODEL_DEPLOYMENT_NAME absent, processor construction succeeds,
and the missing required configuration value surfaces only inside the
worker, mid-batch, as a per-file error record — refuting the claim that
every absent required config value is detected at construction time. -/
theorem config_failfast_counterexample :
    create_processor cfgNoModel = Except.ok ⟨"ep", "key", "pk", "proj"⟩ ∧
    process_single_file_worker "a.pdf" ⟨"ep", "key", "pk", "proj"⟩ envNoModel =
      [errorRecord "a.pdf"
        "AZURE_MODEL_DEPLOYMENT_NAME environment variable is not set"] :=
  ⟨rfl, rfl⟩

/-- C8 amended: the four variables read by create_processor are checked
fail-fast at construction (absence of any of them raises before batch
work; presence of all yields a processor), but AZURE_MODEL_DEPLOYMENT_NAME
is checked per file inside the worker: when it is absent and the earlier
collaborator calls succeed, the worker degrades to a per-file error record
mid-batch. -/
theorem config_check_policy (cfg : ConfigEnv) :
    ((pyTruthyOpt cfg.vision_endpoint && pyTruthyOpt cfg.vision_key &&
        pyTruthyOpt cfg.pezzo_api_key && pyTruthyOpt cfg.pezzo_project_id_3) = false →
      create_processor cfg =
        Except.error "Missing required environment variables for Azure or Pezzo configuration") ∧
    ((pyTruthyOpt cfg.vision_endpoint && pyTruthyOpt cfg.vision_key &&
        pyTruthyOpt cfg.pezzo_api_key && pyTruthyOpt cfg.pezzo_project_id_3) = true →
      ∃ creds, create_processor cfg = Except.ok creds) ∧
    (∀ fp creds env t p, env.ocrResult = Except.ok t →
      env.promptResult = Except.ok p → env.modelDeployment.getD "" = "" →
      process_single_file_worker fp creds env =
        [errorRecord (basename fp)
          "AZURE_MODEL_DEPLOYMENT_NAME environment variable is not set"]) := by
  refine ⟨?_, ?_, ?_⟩
  · intro h
    simp [create_processor, h]
  · intro h
    refine ⟨⟨cfg.vision_endpoint.getD "", cfg.vision_key.getD "",
      cfg.pezzo_api_key.getD "", cfg.pezzo_project_id_3.getD ""⟩, ?_⟩
    simp [create_processor, h]
  · intro fp creds env t p h1 h2 h3
    simp [process_single_file_worker, workerCore, h1, h2, h3]

/-- C8 witness: both halves at concrete configurations: a missing
VISION_ENDPOINT raises at construction, and an absent deployment name
degrades to a per-file error record inside the worker. -/
theorem config_check_policy_witness :
    create_processor cfgMissing =
      Except.error "Missing required environment variables for Azure or Pezzo configuration" ∧
    process_single_file_worker "a.pdf" credsW envNoModel =
      [errorRecord (basename "a.pdf")
        "AZURE_MODEL_DEPLOYMENT_NAME environment variable is not set"] :=
  ⟨(config_check_policy cfgMissing).1 rfl,
   (config_check_policy cfgNoModel).2.2 "a.pdf" credsW envNoModel
     "text" "prompt" rfl rfl rfl⟩

theorem fileRows_ne_nil (fns : List String) (i : Nat) (fr : List Rec) :
    fileRows fns i fr ≠ [] := by
  unfold fileRows
  split
  · simp
  · rename_i hfr
    simp only [ne_eq, List.map_eq_nil_iff]
    intro h
    subst h
    simp at hfr

theorem writeResults_length_ge (fns : List String) (rs : List (List Rec)) :
    ∀ i, rs.length ≤ (writeResults fns i rs).length := by
  induction rs with
  | nil =>
    intro i
    simp [writeResults]
  | cons fr rest ih =>
    intro i
    simp only [writeResults, List.length_append, List.length_cons]
    have h1 : 0 < (fileRows fns i fr).length :=
      List.length_pos.mpr (fileRows_ne_nil fns i fr)
    have h2 := ih (i + 1)
    omega

theorem concatLines_cons (l : String) (ls : List String) :
    concatLines (l :: ls) = l ++ concatLines ls := rfl

theorem two_le_renderRow_length (fields : List String) :
    2 ≤ (renderRow fields).length := by
  unfold renderRow
  rw [String.length_append]
  have h : ("\r\n" : String).length = 2 := rfl
  omega

theorem process_zip_file_ok_eq (creds : Credentials) (env : BatchEnv)
    (files : List String) (hx : extract_zip_files env.zip = Except.ok files)
    (hne : files ≠ []) :
    process_zip_file creds env = Except.ok (concatLines
      (renderRow get_csv_fieldnames ::
        (writeResults get_csv_fieldnames 0 (batchResults creds env files)).map
          renderRow)) := by
  simp only [process_zip_file, hx]
  rw [if_neg (by simp [List.isEmpty_iff, hne])]

/-- C2: for a readable archive with at least one eligible document,
process_zip_file returns a CSV consisting of the header row followed by
the rendered data rows, with at least one data row per eligible file (a
file-result block is never empty, whether the worker failed or returned
nothing), so the returned CSV is never the empty string. -/
theorem process_zip_csv_rows (creds : Credentials) (env : BatchEnv)
    (files : List String) (hx : extract_zip_files env.zip = Except.ok files)
    (hne : files ≠ []) :
    ∃ csv : String,
      process_zip_file creds env = Except.ok csv ∧
      csv = concatLines (renderRow get_csv_fieldnames ::
        (writeResults get_csv_fieldnames 0 (batchResults creds env files)).map
          renderRow) ∧
      files.length ≤
        (writeResults get_csv_fieldnames 0 (batchResults creds env files)).length ∧
      (∀ i fr, fileRows get_csv_fieldnames i fr ≠ []) ∧
      csv ≠ "" := by
  refine ⟨_, process_zip_file_ok_eq creds env files hx hne, rfl, ?_,
    fileRows_ne_nil get_csv_fieldnames, ?_⟩
  · have h1 := writeResults_length_ge get_csv_fieldnames (batchResults creds env files) 0
    have h2 : (batchResults creds env files).length = files.length :=
      List.length_map _ _
    omega
  · rw [concatLines_cons]
    intro h
    have h1 : 2 ≤ (renderRow get_csv_fieldnames).length :=
      two_le_renderRow_length _
    have h2 := congrArg String.length h
    rw [String.length_append] at h2
    have h3 : ("" : String).length = 0 := rfl
    omega

/-- C2 witness: the one-file archive whose worker OCR fails still yields
a header row plus one error row; both hypotheses are discharged at this
concrete batch. -/
theorem process_zip_csv_rows_witness :
    ∃ csv : String,
      process_zip_file credsW envOneFile = Except.ok csv ∧
      csv = concatLines (renderRow get_csv_fieldnames ::
        (writeResults get_csv_fieldnames 0
          (batchResults credsW envOneFile ["a.pdf"])).map renderRow) ∧
      (["a.pdf"] : List String).length ≤
        (writeResults get_csv_fieldnames 0
          (batchResults credsW envOneFile ["a.pdf"])).length ∧
      (∀ i fr, fileRows get_csv_fieldnames i fr ≠ []) ∧
      csv ≠ "" :=
  process_zip_csv_rows credsW envOneFile ["a.pdf"] rfl (by decide)

theorem getD_map_lt {α β : Type} (f : α → β) (l : List α) (k : Nat)
    (d1 : β) (d2 : α) (hk : k < l.length) :
    (l.map f).getD k d1 = f (l.getD k d2) := by
  induction l generalizing k with
  | nil => simp at hk
  | cons x xs ih =>
    cases k with
    | zero => rfl
    | succ k' => exact ih k' (Nat.lt_of_succ_lt_succ hk)

theorem writeResults_take_drop (fns : List String) (rs : List (List Rec))
    (i k : Nat) (hk : k < rs.length) :
    writeResults fns i rs =
      writeResults fns i (rs.take k) ++
      fileRows fns (i + k) (rs.getD k []) ++
      writeResults fns (i + k + 1) (rs.drop (k + 1)) := by
  induction rs generalizing i k with
  | nil => simp at hk
  | cons fr rest ih =>
    cases k with
    | zero =>
      simp [writeResults]
    | succ k' =>
      have hk' : k' < rest.length := Nat.lt_of_succ_lt_succ hk
      simp only [List.take_succ_cons, List.drop_succ_cons, writeResults]
      rw [ih (i + 1) k' hk']
      simp only [List.append_assoc]
      have e1 : i + 1 + k' = i + (k' + 1) := by omega
      rw [e1]
      rfl

/-- C10: the collected results are index-aligned with the dispatched
file list (one result per file, position for position), and the CSV data
rows decompose, around any file index, into the rows of the earlier
files, then that file's block, then the rows of the later files — so row
blocks appear in exactly the archive listing order. -/
theorem csv_row_order (creds : Credentials) (env : BatchEnv)
    (files : List String) (hx : extract_zip_files env.zip = Except.ok files)
    (hne : files ≠ []) (k : Nat) (hk : k < files.length) :
    (batchResults creds env files).length = files.length ∧
    (batchResults creds env files).getD k [] =
      process_single_file_worker (files.getD k "") creds
        (env.fileEnv (files.getD k "")) ∧
    process_zip_file creds env = Except.ok (concatLines
      (renderRow get_csv_fieldnames ::
        (writeResults get_csv_fieldnames 0 ((batchResults creds env files).take k) ++
         fileRows get_csv_fieldnames k ((batchResults creds env files).getD k []) ++
         writeResults get_csv_fieldnames (k + 1)
           ((batchResults creds env files).drop (k + 1))).map renderRow)) := by
  have hlen : (batchResults creds env files).length = files.length :=
    List.length_map _ _
  have hk2 : k < (batchResults creds env files).length := by omega
  refine ⟨hlen, ?_, ?_⟩
  · exact getD_map_lt _ files k [] "" hk
  · rw [process_zip_file_ok_eq creds env files hx hne,
      writeResults_take_drop get_csv_fieldnames (batchResults creds env files) 0 k hk2]
    simp only [Nat.zero_add]

/-- C10 witness: order and index alignment at a concrete one-file batch;
all three hypotheses are discharged there. -/
theorem csv_row_order_witness :
    (batchResults credsW envOneFile ["a.pdf"]).length =
      (["a.pdf"] : List String).length ∧
    (batchResults credsW envOneFile ["a.pdf"]).getD 0 [] =
      process_single_file_worker ((["a.pdf"] : List String).getD 0 "") credsW
        (envOneFile.fileEnv ((["a.pdf"] : List String).getD 0 "")) ∧
    process_zip_file credsW envOneFile = Except.ok (concatLines
      (renderRow get_csv_fieldnames ::
        (writeResults get_csv_fieldnames 0
           ((batchResults credsW envOneFile ["a.pdf"]).take 0) ++
         fileRows get_csv_fieldnames 0
           ((batchResults credsW envOneFile ["a.pdf"]).getD 0 []) ++
         writeResults get_csv_fieldnames (0 + 1)
           ((batchResults credsW envOneFile ["a.pdf"]).drop (0 + 1))).map
          renderRow)) :=
  csv_row_order credsW envOneFile ["a.pdf"] rfl (by decide) 0 (by decide)

end InvoiceBatch
